import Mathlib

/-!
Shallow embedding of the GameDevTask client-side persistent store
(`client/src/lib/indexedDb.ts`) and of the server in-memory storage
(`server/storage.ts`).  IndexedDB object stores become Lean lists with
explicit records; `new Date()` call sites become an explicit `now : Int`
parameter (milliseconds since epoch); fallible operations return `Option`
or a `Bool` status exactly where the source does.
-/

namespace GameDevTasks

/-- Enum `taskStatuses` of the shared schema (`shared/schema.ts`, imported as
`@shared/schema`): not-started, in-progress, completed. -/
inductive TaskStatus
  | notStarted
  | inProgress
  | completed
deriving DecidableEq

/-- Enum `taskPriorities` of the shared schema: high, medium, low. -/
inductive TaskPriority
  | high
  | medium
  | low
deriving DecidableEq

/-- Enum `taskCategories` of the shared schema: programming, design, audio,
marketing, other.  The source string "audio" is rendered `audioCat`. -/
inductive TaskCategory
  | programming
  | design
  | audioCat
  | marketing
  | other
deriving DecidableEq

/-- Enum `projectPhases` of the shared schema: pre-production, production,
post-production. -/
inductive ProjectPhase
  | preProduction
  | production
  | postProduction
deriving DecidableEq

/-- Row of the `projects` table of the shared schema; dates are milliseconds
since epoch.  The `created_at` column is non-null only through a
database-side default: `insertProjectSchema` omits it and the client
`createProject` adds nothing, so rows written by the client carry no value —
the embedded field is therefore optional, `none` meaning absent. -/
structure Project where
  id : Nat
  name : String
  description : Option String
  phase : ProjectPhase
  color : String
  deadline : Option Int
  progress : Int
  createdAt : Option Int
  gameEngine : Option String
  developmentTools : String
deriving DecidableEq

/-- Caller-supplied project fields: `InsertProject` is
`createInsertSchema(projects).omit` of id and createdAt in the shared
schema — every project column except the generated id and `createdAt`. -/
structure InsertProject where
  name : String
  description : Option String := none
  phase : ProjectPhase
  color : String := ""
  deadline : Option Int := none
  progress : Int := 0
  gameEngine : Option String := none
  developmentTools : String := ""
deriving DecidableEq

/-- Row of the `tasks` table of the shared schema; dates are milliseconds
since epoch. -/
structure Task where
  id : Nat
  projectId : Option Nat
  title : String
  description : Option String
  status : TaskStatus
  priority : TaskPriority
  category : TaskCategory
  deadline : Option Int
  createdAt : Int
  completedAt : Option Int
  parentTaskId : Option Nat
  order : Int
  blockId : Option String
  assignedTo : Option String
deriving DecidableEq

/-- Caller-supplied task fields: `InsertTask` is
`createInsertSchema(tasks).omit` of id, createdAt and completedAt in the
shared schema.  `createTask` adds `createdAt` and `completedAt` as metadata,
and `completeTask` alone sets `completedAt`. -/
structure InsertTask where
  projectId : Option Nat := none
  title : String
  description : Option String := none
  status : Option TaskStatus := none
  priority : Option TaskPriority := none
  category : Option TaskCategory := none
  deadline : Option Int := none
  parentTaskId : Option Nat := none
  order : Int := 0
  blockId : Option String := none
  assignedTo : Option String := none
deriving DecidableEq

/-- Partial update for `updateTask` (TypeScript `Partial<InsertTask>`): a field
that is `none` is absent from the patch and keeps its stored value. -/
structure TaskPatch where
  projectId : Option (Option Nat) := none
  title : Option String := none
  description : Option (Option String) := none
  status : Option TaskStatus := none
  priority : Option TaskPriority := none
  category : Option TaskCategory := none
  deadline : Option (Option Int) := none
  parentTaskId : Option (Option Nat) := none
  order : Option Int := none
  blockId : Option (Option String) := none
  assignedTo : Option (Option String) := none
deriving DecidableEq

/-- Partial update for `updateProject` (TypeScript `Partial<InsertProject>`). -/
structure ProjectPatch where
  name : Option String := none
  description : Option (Option String) := none
  phase : Option ProjectPhase := none
  color : Option String := none
  deadline : Option (Option Int) := none
  progress : Option Int := none
  gameEngine : Option (Option String) := none
  developmentTools : Option String := none
deriving DecidableEq

/-- Subtask row: id, taskId, title, isCompleted, order. -/
structure Subtask where
  id : Nat
  taskId : Nat
  title : String
  isCompleted : Bool
  order : Int
deriving DecidableEq

/-- Input of `createSubtask`: taskId, title, order. -/
structure SubtaskInput where
  taskId : Nat
  title : String
  order : Int
deriving DecidableEq

/-- Partial update for `updateSubtask`: title, isCompleted, order. -/
structure SubtaskPatch where
  title : Option String := none
  isCompleted : Option Bool := none
  order : Option Int := none
deriving DecidableEq

/-- Comment row. -/
structure Comment where
  id : Nat
  taskId : Nat
  content : String
  createdBy : String
  createdAt : Int
deriving DecidableEq

/-- Input of `addComment`. -/
structure CommentInput where
  taskId : Nat
  content : String
  createdBy : String
deriving DecidableEq

/-- TimeLog row: duration is in seconds, endTime is null while tracking runs. -/
structure TimeLog where
  id : Nat
  taskId : Nat
  startTime : Int
  endTime : Option Int
  duration : Int
  description : String
deriving DecidableEq

/-- Activity log row as built by `addActivityLog`. -/
structure ActivityRow where
  id : Nat
  taskId : Option Nat
  projectId : Option Nat
  action : String
  details : String
  timestamp : Int
  userId : String
deriving DecidableEq

/-- Entity tag of a sync-log row. -/
inductive SyncEntityType
  | project
  | task
  | subtask
  | block
  | comment
  | timeLog
deriving DecidableEq

/-- Action tag of a sync-log row. -/
inductive SyncAction
  | create
  | update
  | delete
deriving DecidableEq

/-- Payload stored in a sync-log row's `data` field (`any` in the source): a
full entity snapshot, or `none` for the JavaScript `null`. -/
inductive SyncData
  | proj (p : Project)
  | task (t : Task)
  | sub (x : Subtask)
  | comm (c : Comment)
  | tlog (l : TimeLog)
deriving DecidableEq

/-- Sync queue row as built by `addSyncLogEntry`. -/
structure SyncRow where
  id : Nat
  entityType : SyncEntityType
  entityId : Nat
  action : SyncAction
  timestamp : Int
  synced : Bool
  data : Option SyncData
deriving DecidableEq

/-- Whole client store: each IndexedDB object store is a list of rows, and each
auto-increment table carries its key generator (IndexedDB generators start at 1
and are never reset by deletes). -/
structure Store where
  projects : List Project := []
  tasks : List Task := []
  subtasks : List Subtask := []
  comments : List Comment := []
  timeLogs : List TimeLog := []
  activityLog : List ActivityRow := []
  syncLog : List SyncRow := []
  nextProjectId : Nat := 1
  nextTaskId : Nat := 1
  nextCommentId : Nat := 1
  nextTimeLogId : Nat := 1
  nextActivityId : Nat := 1
  nextSyncId : Nat := 1
deriving DecidableEq

/-- JavaScript truthiness of `number | undefined`: `undefined` and `0` are
falsy (`options.projectId`, `options.taskId`, `options.limit`,
`log.taskId || null`). -/
def truthy (o : Option Nat) : Bool := (o.getD 0) != 0

/-- Models `x || null` on an optional numeric field: `0` collapses to null. -/
def orNull (o : Option Nat) : Option Nat := if truthy o then o else none

/-- Mirrors `addActivityLog`: builds the row with `taskId: log.taskId || null`,
`projectId: log.projectId || null`, `timestamp: new Date()`,
`userId: log.userId || 'current-user'` and appends it. -/
def addActivityLog (s : Store) (taskId projectId : Option Nat)
    (action details : String) (userId : Option String) (now : Int) : Store :=
  { s with
    activityLog := s.activityLog ++
      [{ id := s.nextActivityId
         taskId := orNull taskId
         projectId := orNull projectId
         action := action
         details := details
         timestamp := now
         userId := userId.getD "current-user" }]
    nextActivityId := s.nextActivityId + 1 }

/-- Mirrors `addSyncLogEntry`: appends an unsynced row with the given entity
type, id, action and data payload. -/
def addSyncLogEntry (s : Store) (entityType : SyncEntityType) (entityId : Nat)
    (action : SyncAction) (data : Option SyncData) (now : Int) : Store :=
  { s with
    syncLog := s.syncLog ++
      [{ id := s.nextSyncId
         entityType := entityType
         entityId := entityId
         action := action
         timestamp := now
         synced := false
         data := data }]
    nextSyncId := s.nextSyncId + 1 }

/-- Mirrors `createProject`: assigns the auto-increment key and stores the
insert fields — `InsertProject` has no createdAt, so the stored row carries
none — then appends an activity entry and a sync entry. -/
def createProject (input : InsertProject) (now : Int) (s : Store) :
    Project × Store :=
  let id := s.nextProjectId
  let newProject : Project :=
    { id := id
      name := input.name
      description := input.description
      phase := input.phase
      color := input.color
      deadline := input.deadline
      progress := input.progress
      createdAt := none
      gameEngine := input.gameEngine
      developmentTools := input.developmentTools }
  let s1 : Store :=
    { s with projects := s.projects ++ [newProject], nextProjectId := id + 1 }
  let s2 := addActivityLog s1 none (some id) "create"
    ("Created project: " ++ input.name) none now
  let s3 := addSyncLogEntry s2 .project id .create (some (.proj newProject)) now
  (newProject, s3)

/-- Shallow merge of a project patch onto a stored project
(`{ ...existingProject, ...typedProject }`). -/
def mergeProject (p : Project) (patch : ProjectPatch) : Project :=
  { p with
    name := patch.name.getD p.name
    description := patch.description.getD p.description
    phase := patch.phase.getD p.phase
    color := patch.color.getD p.color
    deadline := patch.deadline.getD p.deadline
    progress := patch.progress.getD p.progress
    gameEngine := patch.gameEngine.getD p.gameEngine
    developmentTools := patch.developmentTools.getD p.developmentTools }

/-- Mirrors `updateProject`: undefined on a missing id, otherwise stores the
shallow merge, appends an activity entry and a sync entry with the merged
snapshot. -/
def updateProject (id : Nat) (patch : ProjectPatch) (now : Int) (s : Store) :
    Option Project × Store :=
  match s.projects.find? (fun p => p.id == id) with
  | none => (none, s)
  | some existing =>
    let updated := mergeProject existing patch
    let s1 : Store :=
      { s with projects := s.projects.map (fun p => if p.id == id then updated else p) }
    let s2 := addActivityLog s1 none (some id) "update"
      ("Updated project: " ++ existing.name) none now
    let s3 := addSyncLogEntry s2 .project id .update (some (.proj updated)) now
    (some updated, s3)

/-- Loop body of `deleteProject`: for each cascaded task, delete the task row
and append a sync entry with null data. -/
def cascadeDeleteTasks (tasksToDelete : List Task) (now : Int) (acc : Store) :
    Store :=
  tasksToDelete.foldl
    (fun acc t =>
      addSyncLogEntry
        { acc with tasks := acc.tasks.filter (fun x => x.id != t.id) }
        .task t.id .delete none now)
    acc

/-- Mirrors `deleteProject`: false on a missing id with the store untouched;
otherwise deletes the project row, deletes every task found in the
`by-project` index for this id (appending one null-data sync entry each), then
appends one activity entry and one null-data sync entry for the project. -/
def deleteProject (id : Nat) (now : Int) (s : Store) : Bool × Store :=
  match s.projects.find? (fun p => p.id == id) with
  | none => (false, s)
  | some project =>
    let tasksToDelete := s.tasks.filter (fun t => t.projectId == some id)
    let s1 : Store :=
      { s with projects := s.projects.filter (fun p => p.id != id) }
    let s2 := cascadeDeleteTasks tasksToDelete now s1
    let s3 := addActivityLog s2 none none "delete"
      ("Deleted project: " ++ project.name) none now
    let s4 := addSyncLogEntry s3 .project id .delete none now
    (true, s4)

/-- Mirrors `createTask`: enum defaults (`not-started`, `medium`, `other`),
metadata `createdAt = now` and `completedAt = null`, auto-increment id; then
one activity entry and one sync entry with the new snapshot. -/
def createTask (input : InsertTask) (now : Int) (s : Store) : Task × Store :=
  let id := s.nextTaskId
  let newTask : Task :=
    { id := id
      projectId := input.projectId
      title := input.title
      description := input.description
      status := input.status.getD .notStarted
      priority := input.priority.getD .medium
      category := input.category.getD .other
      deadline := input.deadline
      createdAt := now
      completedAt := none
      parentTaskId := input.parentTaskId
      order := input.order
      blockId := input.blockId
      assignedTo := input.assignedTo }
  let s1 : Store := { s with tasks := s.tasks ++ [newTask], nextTaskId := id + 1 }
  let s2 := addActivityLog s1 (some id) input.projectId "create"
    ("Created task: " ++ input.title) none now
  let s3 := addSyncLogEntry s2 .task id .create (some (.task newTask)) now
  (newTask, s3)

/-- Shallow merge of a task patch onto a stored task
(`{ ...existingTask, ...typedTaskUpdate }`); `createdAt` and `completedAt` are
not part of the patch shape. -/
def mergeTask (t : Task) (patch : TaskPatch) : Task :=
  { t with
    projectId := patch.projectId.getD t.projectId
    title := patch.title.getD t.title
    description := patch.description.getD t.description
    status := patch.status.getD t.status
    priority := patch.priority.getD t.priority
    category := patch.category.getD t.category
    deadline := patch.deadline.getD t.deadline
    parentTaskId := patch.parentTaskId.getD t.parentTaskId
    order := patch.order.getD t.order
    blockId := patch.blockId.getD t.blockId
    assignedTo := patch.assignedTo.getD t.assignedTo }

/-- Mirrors `updateTask`: undefined on a missing id, otherwise stores the
shallow merge, appends one activity entry and one sync entry with the merged
snapshot. -/
def updateTask (id : Nat) (patch : TaskPatch) (now : Int) (s : Store) :
    Option Task × Store :=
  match s.tasks.find? (fun t => t.id == id) with
  | none => (none, s)
  | some existing =>
    let updated := mergeTask existing patch
    let s1 : Store :=
      { s with tasks := s.tasks.map (fun t => if t.id == id then updated else t) }
    let s2 := addActivityLog s1 (some id) updated.projectId "update"
      ("Updated task: " ++ existing.title) none now
    let s3 := addSyncLogEntry s2 .task id .update (some (.task updated)) now
    (some updated, s3)

/-- Mirrors `completeTask`: undefined on a missing id, otherwise sets
`status = completed` and `completedAt = now`, appends one activity entry and
one sync entry (action `update`) with the new snapshot. -/
def completeTask (id : Nat) (now : Int) (s : Store) : Option Task × Store :=
  match s.tasks.find? (fun t => t.id == id) with
  | none => (none, s)
  | some task =>
    let updated : Task := { task with status := .completed, completedAt := some now }
    let s1 : Store :=
      { s with tasks := s.tasks.map (fun t => if t.id == id then updated else t) }
    let s2 := addActivityLog s1 (some id) task.projectId "complete"
      ("Completed task: " ++ task.title) none now
    let s3 := addSyncLogEntry s2 .task id .update (some (.task updated)) now
    (some updated, s3)

/-- Mirrors `deleteTask`: false on a missing id; otherwise deletes the row and
appends one activity entry (no taskId back-reference in the source call) and
one sync entry with null data. -/
def deleteTask (id : Nat) (now : Int) (s : Store) : Bool × Store :=
  match s.tasks.find? (fun t => t.id == id) with
  | none => (false, s)
  | some task =>
    let s1 : Store := { s with tasks := s.tasks.filter (fun t => t.id != id) }
    let s2 := addActivityLog s1 none task.projectId "delete"
      ("Deleted task: " ++ task.title) none now
    let s3 := addSyncLogEntry s2 .task id .delete none now
    (true, s3)

/-- Activity append guarded by the parent task lookup, the recurring pattern
`const task = await db.get('tasks', ...); if (task) { await addActivityLog(...) }`
of the subtask, comment and time-tracking operations. -/
def logTaskActivity (s : Store) (taskId : Nat) (action : String)
    (mkDetails : Task → String) (userId : Option String) (now : Int) : Store :=
  match s.tasks.find? (fun t => t.id == taskId) with
  | some task =>
    addActivityLog s (some taskId) task.projectId action (mkDetails task) userId now
  | none => s

/-- Mirrors `createSubtask`: the id is derived as `count('subtasks') + 1`; the
underlying `db.add` throws on a key collision, modelled as `none`.  On success
an activity entry is appended only when the parent task exists, then a sync
entry with the new snapshot. -/
def createSubtask (input : SubtaskInput) (now : Int) (s : Store) :
    Option (Subtask × Store) :=
  let nextId := s.subtasks.length + 1
  if s.subtasks.any (fun x => x.id == nextId) then none
  else
    let newSubtask : Subtask :=
      { id := nextId
        taskId := input.taskId
        title := input.title
        order := input.order
        isCompleted := false }
    let s1 : Store := { s with subtasks := s.subtasks ++ [newSubtask] }
    let s2 := logTaskActivity s1 input.taskId "create"
      (fun task => "Added subtask to \x22" ++ task.title ++ "\x22: " ++ input.title)
      none now
    let s3 := addSyncLogEntry s2 .subtask nextId .create (some (.sub newSubtask)) now
    some (newSubtask, s3)

/-- Shallow merge of a subtask patch (`{ ...subtask, ...updates }`). -/
def mergeSubtask (x : Subtask) (patch : SubtaskPatch) : Subtask :=
  { x with
    title := patch.title.getD x.title
    isCompleted := patch.isCompleted.getD x.isCompleted
    order := patch.order.getD x.order }

/-- Mirrors `updateSubtask`: throws on a missing id (modelled as `none`);
otherwise stores the merge, appends a sync entry with the merged snapshot, and
appends an activity entry only when the parent task exists (action depends on
whether `isCompleted` is part of the patch). -/
def updateSubtask (subtaskId : Nat) (patch : SubtaskPatch) (now : Int)
    (s : Store) : Option (Subtask × Store) :=
  match s.subtasks.find? (fun x => x.id == subtaskId) with
  | none => none
  | some subtask =>
    let updated := mergeSubtask subtask patch
    let s1 : Store :=
      { s with subtasks := s.subtasks.map (fun x => if x.id == subtaskId then updated else x) }
    let s2 := addSyncLogEntry s1 .subtask subtaskId .update (some (.sub updated)) now
    let s3 :=
      match patch.isCompleted with
      | some b =>
        logTaskActivity s2 subtask.taskId (if b then "complete" else "reopen")
          (fun _ => (if b then "Completed subtask \x22" else "Reopened subtask \x22") ++
            subtask.title ++ "\x22")
          none now
      | none =>
        logTaskActivity s2 subtask.taskId "update"
          (fun _ => "Updated subtask \x22" ++ subtask.title ++ "\x22") none now
    some (updated, s3)

/-- Mirrors `deleteSubtask`: false on a missing id; otherwise deletes the row,
appends a sync entry whose data is the pre-deletion snapshot of the subtask
(the source passes `subtask`, not null), then an activity entry when the
parent task exists. -/
def deleteSubtask (subtaskId : Nat) (now : Int) (s : Store) : Bool × Store :=
  match s.subtasks.find? (fun x => x.id == subtaskId) with
  | none => (false, s)
  | some subtask =>
    let s1 : Store :=
      { s with subtasks := s.subtasks.filter (fun x => x.id != subtaskId) }
    let s2 := addSyncLogEntry s1 .subtask subtaskId .delete (some (.sub subtask)) now
    let s3 := logTaskActivity s2 subtask.taskId "delete"
      (fun _ => "Deleted subtask \x22" ++ subtask.title ++ "\x22") none now
    (true, s3)

/-- Loop body of `updateSubtasksOrder` for one requested pair `(id, order)`:
when the id exists, store the row with the new order and append a sync entry
with the rewritten snapshot; otherwise skip silently. -/
def applyOrderReq (now : Int) (acc : Store) (r : Nat × Int) : Store :=
  match acc.subtasks.find? (fun x => x.id == r.1) with
  | none => acc
  | some current =>
    let updated : Subtask := { current with order := r.2 }
    addSyncLogEntry
      { acc with subtasks := acc.subtasks.map (fun x => if x.id == r.1 then updated else x) }
      .subtask r.1 .update (some (.sub updated)) now

/-- Mirrors `updateSubtasksOrder`: rewrites the order field of every listed
subtask inside one transaction, then appends one reorder activity entry and
returns true. -/
def updateSubtasksOrder (reqs : List (Nat × Int)) (now : Int) (s : Store) :
    Bool × Store :=
  let s1 := reqs.foldl (applyOrderReq now) s
  let s2 := addActivityLog s1 none none "reorder"
    ("Reordered " ++ toString reqs.length ++ " subtasks") none now
  (true, s2)

/-- Mirrors `addComment`: stores the comment with `createdAt = now` under the
auto-increment key, appends an activity entry only when the parent task
exists, then a sync entry with the new snapshot. -/
def addComment (input : CommentInput) (now : Int) (s : Store) :
    Comment × Store :=
  let id := s.nextCommentId
  let result : Comment :=
    { id := id
      taskId := input.taskId
      content := input.content
      createdBy := input.createdBy
      createdAt := now }
  let s1 : Store :=
    { s with comments := s.comments ++ [result], nextCommentId := id + 1 }
  let s2 := logTaskActivity s1 input.taskId "comment"
    (fun task => "Added comment to \x22" ++ task.title ++ "\x22")
    (some input.createdBy) now
  let s3 := addSyncLogEntry s2 .comment id .create (some (.comm result)) now
  (result, s3)

/-- Mirrors `startTimeTracking`: stores a log with `startTime = now`,
`endTime = null`, `duration = 0` under the auto-increment key, and appends an
activity entry when the task exists.  The source appends no sync entry here. -/
def startTimeTracking (taskId : Nat) (description : String) (now : Int)
    (s : Store) : TimeLog × Store :=
  let id := s.nextTimeLogId
  let result : TimeLog :=
    { id := id
      taskId := taskId
      startTime := now
      endTime := none
      duration := 0
      description := description }
  let s1 : Store :=
    { s with timeLogs := s.timeLogs ++ [result], nextTimeLogId := id + 1 }
  let s2 := logTaskActivity s1 taskId "time-start"
    (fun task => "Started time tracking for \x22" ++ task.title ++ "\x22") none now
  (result, s2)

/-- JavaScript `Math.round(ms / 1000)` on integer milliseconds:
`Math.round(x)` is the floor of `x + 1/2`, so on integers this is
`fdiv (ms + 500) 1000`. -/
def mathRoundMsToSec (ms : Int) : Int := Int.fdiv (ms + 500) 1000

/-- Mirrors `formatDuration`: renders seconds as an `Hh Mm Ss` string. -/
def formatDuration (seconds : Int) : String :=
  toString (Int.fdiv seconds 3600) ++ "h " ++
  toString (Int.fdiv (Int.emod seconds 3600) 60) ++ "m " ++
  toString (Int.emod seconds 60) ++ "s"

/-- Mirrors `stopTimeTracking`: null on a missing id; otherwise overwrites
`endTime` with now, recomputes `duration = Math.round((end - start)/1000)`
from the stored `startTime`, stores the row, appends an activity entry when
the task exists and a sync entry with the updated snapshot. -/
def stopTimeTracking (timeLogId : Nat) (now : Int) (s : Store) :
    Option TimeLog × Store :=
  match s.timeLogs.find? (fun l => l.id == timeLogId) with
  | none => (none, s)
  | some timeLog =>
    let duration := mathRoundMsToSec (now - timeLog.startTime)
    let updated : TimeLog := { timeLog with endTime := some now, duration := duration }
    let s1 : Store :=
      { s with timeLogs := s.timeLogs.map (fun l => if l.id == timeLogId then updated else l) }
    let s2 := logTaskActivity s1 timeLog.taskId "time-stop"
      (fun task => "Stopped time tracking for \x22" ++ task.title ++ "\x22 (" ++
        formatDuration duration ++ ")")
      none now
    let s3 := addSyncLogEntry s2 .timeLog timeLogId .update (some (.tlog updated)) now
    (some updated, s3)

/-- Options record of `getActivityLog`. -/
structure ActivityQuery where
  projectId : Option Nat := none
  taskId : Option Nat := none
  limit : Option Nat := none
deriving DecidableEq

/-- Sorting `(a, b) => b.timestamp - a.timestamp`: newest first. -/
def sortByTimestampDesc (logs : List ActivityRow) : List ActivityRow :=
  logs.mergeSort (fun a b => decide (b.timestamp ≤ a.timestamp))

/-- Mirrors `getActivityLog`: a truthy `projectId` filters on the by-project
index (and shadows `taskId`), else a truthy `taskId` filters on the by-task
index, else all rows; the result is sorted newest first and truncated only
when `limit` is truthy and exceeded. -/
def getActivityLog (q : ActivityQuery) (s : Store) : List ActivityRow :=
  let logs :=
    if truthy q.projectId then
      s.activityLog.filter (fun r => r.projectId == q.projectId)
    else if truthy q.taskId then
      s.activityLog.filter (fun r => r.taskId == q.taskId)
    else s.activityLog
  let sorted := sortByTimestampDesc logs
  if truthy q.limit && decide (q.limit.getD 0 < sorted.length) then
    sorted.take (q.limit.getD 0)
  else sorted

/-- Aggregates returned by `getStatistics`.  The calendar-windowed
`tasksByDay`, the `tasksByCategory` record and `avgCompletionTimeHours` are
UI-side aggregates not referenced by any claim and are omitted here. -/
structure Statistics where
  totalProjects : Nat
  completedTasks : Nat
  inProgressTasks : Nat
  notStartedTasks : Nat
  totalTrackedSeconds : Int
  subtaskTotal : Nat
  subtaskCompleted : Nat
deriving DecidableEq

/-- Mirrors `getStatistics`: full scans; `totalTrackedSeconds` reduces the
durations of the logs passing the `log.duration > 0` filter. -/
def getStatistics (s : Store) : Statistics :=
  { totalProjects := s.projects.length
    completedTasks := (s.tasks.filter (fun t => t.status == .completed)).length
    inProgressTasks := (s.tasks.filter (fun t => t.status == .inProgress)).length
    notStartedTasks := (s.tasks.filter (fun t => t.status == .notStarted)).length
    totalTrackedSeconds :=
      (s.timeLogs.filter (fun l => decide (0 < l.duration))).foldl
        (fun total l => total + l.duration) 0
    subtaskTotal := s.subtasks.length
    subtaskCompleted := (s.subtasks.filter (fun x => x.isCompleted)).length }

end GameDevTasks

namespace MemStorage

open GameDevTasks

/-- Settings singleton of the server storage. -/
structure SettingsRec where
  id : Nat
  theme : String
  language : String
  primaryColor : String
deriving DecidableEq

/-- Server `MemStorage` state: plain arrays plus the two current-id
counters. -/
structure MemStore where
  projectsData : List Project := []
  tasksData : List Task := []
  settingsData : Option SettingsRec := none
  projectCurrentId : Nat := 1
  taskCurrentId : Nat := 1
deriving DecidableEq

/-- Mirrors `MemStorage.deleteProject`: false when `findIndex` misses;
otherwise splices out the found project row and filters out every task whose
`projectId` equals the id. -/
def deleteProject (id : Nat) (s : MemStore) : Bool × MemStore :=
  match s.projectsData.find? (fun p => p.id == id) with
  | none => (false, s)
  | some _ =>
    (true,
     { s with
       projectsData := s.projectsData.eraseP (fun p => p.id == id)
       tasksData := s.tasksData.filter (fun t => t.projectId != some id) })

end MemStorage

namespace GameDevTasks

/-- Concrete project row used by witnesses. -/
def sampleProject : Project :=
  { id := 1, name := "P", description := none, phase := .production,
    color := "", deadline := none, progress := 0, createdAt := none,
    gameEngine := none, developmentTools := "" }

/-- Concrete task row used by witnesses. -/
def sampleTask : Task :=
  { id := 1, projectId := some 1, title := "T", description := none,
    status := .notStarted, priority := .medium, category := .other,
    deadline := none, createdAt := 0, completedAt := none,
    parentTaskId := none, order := 0, blockId := none, assignedTo := none }

/-- Concrete subtask row used by witnesses. -/
def sampleSubtask : Subtask :=
  { id := 1, taskId := 1, title := "S", isCompleted := false, order := 0 }

/-- Concrete open time log used by witnesses. -/
def sampleLog : TimeLog :=
  { id := 1, taskId := 1, startTime := 100, endTime := none, duration := 0,
    description := "" }

/-- Concrete store used by witnesses: one project, one task, one subtask and
one open time log, each with id 1. -/
def sampleStore : Store :=
  { projects := [sampleProject], tasks := [sampleTask],
    subtasks := [sampleSubtask], timeLogs := [sampleLog],
    nextProjectId := 2, nextTaskId := 2, nextTimeLogId := 2 }

/-- One call of the general task-writing surface: `createTask` or
`updateTask`. -/
inductive TaskWriteOp
  | createT (input : InsertTask) (now : Int)
  | updateT (id : Nat) (patch : TaskPatch) (now : Int)

/-- State effect of one task-writing call. -/
def applyTaskWriteOp (s : Store) : TaskWriteOp → Store
  | .createT input now => (createTask input now s).2
  | .updateT id patch now => (updateTask id patch now s).2

/-- State effect of a sequence of `createTask` / `updateTask` calls. -/
def runTaskWriteOps (s : Store) (ops : List TaskWriteOp) : Store :=
  ops.foldl applyTaskWriteOp s

/-- Time-log shape every reachable store satisfies: durations are never
negative and a log that is still open carries a zero duration. -/
def timeLogInv (s : Store) : Prop :=
  ∀ l ∈ s.timeLogs, 0 ≤ l.duration ∧ (l.endTime = none → l.duration = 0)

/-- Pure effect of one reorder request on one subtask row: the keyed row gets
the requested order. -/
def applyOrd (r : Nat × Int) (x : Subtask) : Subtask :=
  if x.id == r.1 then { x with order := r.2 } else x

/-- Pure effect of a whole reorder request list on one subtask row. -/
def applyAll (reqs : List (Nat × Int)) (x : Subtask) : Subtask :=
  reqs.foldl (fun y r => applyOrd r y) x

/-- Request list built by the reorder caller (`subtask-list.tsx`): the
permuted siblings in their new visual order, each paired with its position. -/
def reorderReq (perm : List Subtask) : List (Nat × Int) :=
  perm.enum.map (fun p => (p.2.id, (p.1 : Int)))

/-- Concrete store with two siblings of task 1 used by the reorder witness. -/
def orderStore : Store :=
  { subtasks := [{ id := 1, taskId := 1, title := "a", isCompleted := false, order := 0 },
                 { id := 2, taskId := 1, title := "b", isCompleted := false, order := 1 }] }

/-- Reversed sibling sequence used by the reorder witness. -/
def witPerm : List Subtask :=
  [{ id := 2, taskId := 1, title := "b", isCompleted := false, order := 1 },
   { id := 1, taskId := 1, title := "a", isCompleted := false, order := 0 }]

/-- Guarded activity append never touches the time-log table. -/
theorem logTaskActivity_timeLogs (s : Store) (tid : Nat) (act : String)
    (f : Task → String) (u : Option String) (now : Int) :
    (logTaskActivity s tid act f u now).timeLogs = s.timeLogs := by
  unfold logTaskActivity
  split <;> rfl

/-- Guarded activity append never touches the task table. -/
theorem logTaskActivity_tasks (s : Store) (tid : Nat) (act : String)
    (f : Task → String) (u : Option String) (now : Int) :
    (logTaskActivity s tid act f u now).tasks = s.tasks := by
  unfold logTaskActivity
  split <;> rfl

/-- Guarded activity append never touches the subtask table. -/
theorem logTaskActivity_subtasks (s : Store) (tid : Nat) (act : String)
    (f : Task → String) (u : Option String) (now : Int) :
    (logTaskActivity s tid act f u now).subtasks = s.subtasks := by
  unfold logTaskActivity
  split <;> rfl

/-- Guarded activity append never touches the sync queue. -/
theorem logTaskActivity_syncLog (s : Store) (tid : Nat) (act : String)
    (f : Task → String) (u : Option String) (now : Int) :
    (logTaskActivity s tid act f u now).syncLog = s.syncLog := by
  unfold logTaskActivity
  split <;> rfl

/-- Guarded activity append never touches the sync-id counter. -/
theorem logTaskActivity_nextSyncId (s : Store) (tid : Nat) (act : String)
    (f : Task → String) (u : Option String) (now : Int) :
    (logTaskActivity s tid act f u now).nextSyncId = s.nextSyncId := by
  unfold logTaskActivity
  split <;> rfl

/-- Guarded activity append grows the activity log by one exactly when the
parent task exists. -/
theorem logTaskActivity_activityLog_length (s : Store) (tid : Nat) (act : String)
    (f : Task → String) (u : Option String) (now : Int) :
    (logTaskActivity s tid act f u now).activityLog.length =
      if (s.tasks.find? (fun t => t.id == tid)).isSome then s.activityLog.length + 1
      else s.activityLog.length := by
  unfold logTaskActivity
  split <;> rename_i heq <;> simp [heq, addActivityLog]

/-- C10: with a truthy projectId the taskId option is ignored, and a projectId
or taskId equal to 0 is falsy, so `getActivityLog` with both equal to 0
behaves as if no filter was supplied: all rows sorted newest first, truncated
only by a truthy limit. -/
theorem getActivityLog_truthy_filters (s : Store) (p : Nat) (tid lim : Option Nat)
    (hp : p ≠ 0) :
    (getActivityLog { projectId := some p, taskId := tid, limit := lim } s =
      getActivityLog { projectId := some p, taskId := none, limit := lim } s)
    ∧ (getActivityLog { projectId := some 0, taskId := some 0, limit := lim } s =
      getActivityLog { projectId := none, taskId := none, limit := lim } s)
    ∧ getActivityLog { projectId := some 0, taskId := some 0, limit := none } s =
      sortByTimestampDesc s.activityLog := by
  unfold getActivityLog truthy
  simp [hp]

/-- Witness for the C10 theorem at projectId 1 on the sample store. -/
theorem getActivityLog_truthy_filters_witness :
    (getActivityLog { projectId := some 1, taskId := some 7, limit := some 2 } sampleStore =
      getActivityLog { projectId := some 1, taskId := none, limit := some 2 } sampleStore)
    ∧ (getActivityLog { projectId := some 0, taskId := some 0, limit := some 2 } sampleStore =
      getActivityLog { projectId := none, taskId := none, limit := some 2 } sampleStore)
    ∧ getActivityLog { projectId := some 0, taskId := some 0, limit := none } sampleStore =
      sortByTimestampDesc sampleStore.activityLog :=
  getActivityLog_truthy_filters sampleStore 1 (some 7) (some 2) (by decide)

/-- C7 counterexample: stopping a log 1500 ms after its start stores a
duration of 2 seconds (`Math.round`), while the claimed floor of 1500/1000 is
1 second. -/
theorem stop_duration_rounds_not_floors :
    (stopTimeTracking 1 1500 (startTimeTracking 1 "" 0 {}).2).1.map TimeLog.duration
      = some 2
    ∧ Int.fdiv (1500 - 0) 1000 = 1 ∧ (2 : Int) ≠ 1 := by
  refine ⟨by decide, by decide, by decide⟩

/-- C7 amended: on a successful stop, the stored row has `endTime = now` and
`duration = round((now - startTime)/1000)`, that is the floor of
`(now - startTime)/1000 + 1/2`; the duration is never negative whenever the
stop time is not before the start time. -/
theorem stop_duration_round_formula (s : Store) (id : Nat) (now : Int)
    (l : TimeLog) (hfind : s.timeLogs.find? (fun x => x.id == id) = some l) :
    (stopTimeTracking id now s).1 =
      some { l with endTime := some now,
                    duration := Int.fdiv (now - l.startTime + 500) 1000 }
    ∧ (l.startTime ≤ now → 0 ≤ Int.fdiv (now - l.startTime + 500) 1000) := by
  constructor
  · unfold stopTimeTracking
    rw [hfind]
    rfl
  · intro hle
    rw [Int.fdiv_eq_ediv _ (by omega)]
    exact Int.ediv_nonneg (by omega) (by omega)

/-- Witness for the C7 amended theorem on the sample store. -/
theorem stop_duration_round_formula_witness :
    (stopTimeTracking 1 2500 sampleStore).1 =
      some { sampleLog with endTime := some 2500,
                            duration := Int.fdiv (2500 - sampleLog.startTime + 500) 1000 }
    ∧ (sampleLog.startTime ≤ 2500 → 0 ≤ Int.fdiv (2500 - sampleLog.startTime + 500) 1000) :=
  stop_duration_round_formula sampleStore 1 2500 sampleLog (by decide)

/-- First match of a keyed put: replacing the row whose key satisfies the
predicate leaves `find?` returning the replacement, provided some row
matched before and the replacement still matches. -/
theorem find?_map_put {α : Type} (p : α → Bool) (upd : α) (hupd : p upd = true) :
    ∀ (ls : List α) (l : α), ls.find? p = some l →
      (ls.map (fun x => if p x then upd else x)).find? p = some upd := by
  intro ls
  induction ls with
  | nil => intro l h; simp at h
  | cons a as ih =>
    intro l h
    by_cases hpa : p a = true
    · rw [List.map_cons, if_pos hpa, List.find?_cons_of_pos _ hupd]
    · rw [List.find?_cons_of_neg _ hpa] at h
      rw [List.map_cons, if_neg hpa, List.find?_cons_of_neg _ hpa]
      exact ih l h

/-- C9: stopping an already-stopped log succeeds and is not a no-op — the
first stop stores `endTime = now1`, and a second stop at `now2` overwrites
`endTime` with `now2` and recomputes the duration from the original
`startTime`, so with a monotone clock the second duration is at least the
first. -/
theorem stopTimeTracking_restop (s : Store) (id : Nat) (now1 now2 : Int)
    (l : TimeLog) (hfind : s.timeLogs.find? (fun x => x.id == id) = some l)
    (hmono : now1 ≤ now2) :
    (stopTimeTracking id now1 s).1 =
      some { l with endTime := some now1,
                    duration := mathRoundMsToSec (now1 - l.startTime) }
    ∧ (stopTimeTracking id now2 (stopTimeTracking id now1 s).2).1 =
      some { l with endTime := some now2,
                    duration := mathRoundMsToSec (now2 - l.startTime) }
    ∧ mathRoundMsToSec (now1 - l.startTime) ≤ mathRoundMsToSec (now2 - l.startTime) := by
  have hid : l.id = id := by
    have := List.find?_some hfind
    simpa using this
  have stop_eq : ∀ (t : Store) (x : TimeLog) (nw : Int),
      t.timeLogs.find? (fun y => y.id == id) = some x →
      (stopTimeTracking id nw t).1 =
        some { x with endTime := some nw,
                      duration := mathRoundMsToSec (nw - x.startTime) } := by
    intro t x nw h
    unfold stopTimeTracking
    rw [h]
  have hLogs : (stopTimeTracking id now1 s).2.timeLogs =
      s.timeLogs.map (fun x => if x.id == id then
        { l with endTime := some now1,
                 duration := mathRoundMsToSec (now1 - l.startTime) } else x) := by
    unfold stopTimeTracking
    rw [hfind]
    simp only [addSyncLogEntry, logTaskActivity_timeLogs]
  have hfind2 : (stopTimeTracking id now1 s).2.timeLogs.find? (fun y => y.id == id) =
      some { l with endTime := some now1,
                    duration := mathRoundMsToSec (now1 - l.startTime) } := by
    rw [hLogs]
    exact find?_map_put (fun x => x.id == id)
      { l with endTime := some now1,
               duration := mathRoundMsToSec (now1 - l.startTime) }
      (by simp [hid]) s.timeLogs l hfind
  refine ⟨stop_eq s l now1 hfind, ?_, ?_⟩
  · rw [stop_eq (stopTimeTracking id now1 s).2 _ now2 hfind2]
  · unfold mathRoundMsToSec
    rw [Int.fdiv_eq_ediv _ (by omega), Int.fdiv_eq_ediv _ (by omega)]
    exact Int.ediv_le_ediv (by omega) (by omega)

/-- Witness for the C9 theorem on the sample store. -/
theorem stopTimeTracking_restop_witness :
    (stopTimeTracking 1 1100 sampleStore).1 =
      some { sampleLog with endTime := some 1100,
                            duration := mathRoundMsToSec (1100 - sampleLog.startTime) }
    ∧ (stopTimeTracking 1 4100 (stopTimeTracking 1 1100 sampleStore).2).1 =
      some { sampleLog with endTime := some 4100,
                            duration := mathRoundMsToSec (4100 - sampleLog.startTime) }
    ∧ mathRoundMsToSec (1100 - sampleLog.startTime) ≤
        mathRoundMsToSec (4100 - sampleLog.startTime) :=
  stopTimeTracking_restop sampleStore 1 1100 4100 sampleLog (by decide) (by decide)

/-- Merging a task patch never touches `completedAt`. -/
theorem mergeTask_completedAt (t : Task) (p : TaskPatch) :
    (mergeTask t p).completedAt = t.completedAt := rfl

/-- Task table after `createTask`: the old rows plus the returned row. -/
theorem createTask_tasks (input : InsertTask) (now : Int) (s : Store) :
    (createTask input now s).2.tasks = s.tasks ++ [(createTask input now s).1] := rfl

/-- Task table after `updateTask`: untouched on a miss, keyed replacement by
the merged row on a hit. -/
theorem updateTask_tasks (id : Nat) (patch : TaskPatch) (now : Int) (s : Store) :
    (updateTask id patch now s).2.tasks =
      match s.tasks.find? (fun t => t.id == id) with
      | none => s.tasks
      | some ex => s.tasks.map (fun t => if t.id == id then mergeTask ex patch else t) := by
  unfold updateTask
  split <;> rfl

/-- Any sequence of `createTask` / `updateTask` calls keeps every
`completedAt` null when every stored task had a null `completedAt`. -/
theorem runTaskWriteOps_completedAt (ops : List TaskWriteOp) (s : Store)
    (h : ∀ t ∈ s.tasks, t.completedAt = none) :
    ∀ t ∈ (runTaskWriteOps s ops).tasks, t.completedAt = none := by
  induction ops generalizing s with
  | nil => exact h
  | cons op ops ih =>
    refine ih (applyTaskWriteOp s op) ?_
    cases op with
    | createT input now =>
      intro t ht
      simp only [applyTaskWriteOp] at ht
      rw [createTask_tasks] at ht
      rcases List.mem_append.mp ht with h1 | h2
      · exact h t h1
      · have : t = (createTask input now s).1 := by simpa using h2
        rw [this]
        rfl
    | updateT id patch now =>
      intro t ht
      simp only [applyTaskWriteOp] at ht
      rw [updateTask_tasks] at ht
      cases hf : s.tasks.find? (fun x => x.id == id) with
      | none =>
        rw [hf] at ht
        exact h t ht
      | some ex =>
        rw [hf] at ht
        rcases List.mem_map.mp ht with ⟨x, hx, rfl⟩
        by_cases hxi : (x.id == id) = true
        · simp only [if_pos hxi, mergeTask_completedAt]
          exact h ex (List.mem_of_find?_eq_some hf)
        · simp only [if_neg hxi]
          exact h x hx

/-- C1 amended: for every created task, `completedAt` stays null under any
sequence of `createTask` / `updateTask` calls, and immediately after
`completeTask` on an existing id the task has status completed and a non-null
`completedAt`.  The two-sided iff of the original claim fails, because
`updateTask` can set the status to completed without touching `completedAt`
(see the counterexample). -/
theorem completedAt_lifecycle (ops : List TaskWriteOp) (s sc : Store)
    (id : Nat) (now : Int) (tk : Task)
    (hnone : ∀ t ∈ s.tasks, t.completedAt = none)
    (hfind : sc.tasks.find? (fun t => t.id == id) = some tk) :
    (∀ t ∈ (runTaskWriteOps s ops).tasks, t.completedAt = none)
    ∧ (completeTask id now sc).1 =
        some { tk with status := .completed, completedAt := some now }
    ∧ (∀ u ∈ (completeTask id now sc).2.tasks, u.id = id →
        u.status = .completed ∧ u.completedAt = some now) := by
  refine ⟨runTaskWriteOps_completedAt ops s hnone, ?_, ?_⟩
  · unfold completeTask
    rw [hfind]
  · intro u hu hui
    have htasks : (completeTask id now sc).2.tasks =
        sc.tasks.map (fun t => if t.id == id then
          { tk with status := .completed, completedAt := some now } else t) := by
      unfold completeTask
      rw [hfind]
      rfl
    rw [htasks] at hu
    rcases List.mem_map.mp hu with ⟨x, hx, rfl⟩
    by_cases hxi : (x.id == id) = true
    · simp [hxi]
    · simp only [if_neg hxi] at hui ⊢
      exact absurd hui (by simpa using hxi)

/-- Witness for the C1 amended theorem: a create followed by a priority
update from the empty store, and a complete on the sample store. -/
theorem completedAt_lifecycle_witness :
    (∀ t ∈ (runTaskWriteOps {} [TaskWriteOp.createT { title := "A" } 0,
        TaskWriteOp.updateT 1 { priority := some TaskPriority.high } 1]).tasks,
      t.completedAt = none)
    ∧ (completeTask 1 9 sampleStore).1 =
        some { sampleTask with status := .completed, completedAt := some 9 }
    ∧ (∀ u ∈ (completeTask 1 9 sampleStore).2.tasks, u.id = 1 →
        u.status = .completed ∧ u.completedAt = some 9) :=
  completedAt_lifecycle
    [TaskWriteOp.createT { title := "A" } 0,
     TaskWriteOp.updateT 1 { priority := some TaskPriority.high } 1]
    {} sampleStore 1 9 sampleTask
    (fun t ht => absurd ht (List.not_mem_nil t)) (by decide)

/-- C1 counterexample: from the empty store, `createTask` then
`updateTask` with a completed status reaches a state whose only task has
status completed while `completedAt` is still null, refuting the claimed
iff invariant. -/
theorem updateTask_completed_without_completedAt :
    ((updateTask 1 { status := some .completed } 5
        (createTask { title := "A" } 0 {}).2).2.tasks.map
      (fun t => (t.status, t.completedAt))) =
    [(TaskStatus.completed, (none : Option Int))] := by decide

/-- Sum of durations over the positive-duration filter equals the sum over
the closed-log filter, on any list of well-shaped logs. -/
theorem tracked_sum_eq (ls : List TimeLog)
    (h : ∀ l ∈ ls, 0 ≤ l.duration ∧ (l.endTime = none → l.duration = 0)) :
    ((ls.filter (fun l => decide (0 < l.duration))).map TimeLog.duration).sum =
    ((ls.filter (fun l => l.endTime != none)).map TimeLog.duration).sum := by
  induction ls with
  | nil => rfl
  | cons a as ih =>
    obtain ⟨ha1, ha2⟩ := h a (List.mem_cons_self a as)
    have ih2 := ih (fun l hl => h l (List.mem_cons_of_mem a hl))
    by_cases hd : 0 < a.duration
    · have hend : a.endTime ≠ none := fun he => by
        have := ha2 he
        omega
      simp [List.filter_cons, hd, hend, ih2]
    · have hd0 : a.duration = 0 := by omega
      cases he : a.endTime with
      | none => simp [List.filter_cons, hd, he, ih2]
      | some v => simp [List.filter_cons, hd, he, ih2, hd0]

/-- C5: on any store satisfying the reachable-state time-log shape,
`getStatistics` reports `totalTrackedSeconds` equal to the sum of `duration`
over exactly the logs with a non-null `endTime` — the open logs are
excluded. -/
theorem totalTrackedSeconds_sums_closed_logs (s : Store) (h : timeLogInv s) :
    (getStatistics s).totalTrackedSeconds =
    ((s.timeLogs.filter (fun l => l.endTime != none)).map TimeLog.duration).sum := by
  have hfold : (getStatistics s).totalTrackedSeconds =
      ((s.timeLogs.filter (fun l => decide (0 < l.duration))).map TimeLog.duration).sum := by
    simp [getStatistics, List.sum_eq_foldl, List.foldl_map]
  rw [hfold]
  exact tracked_sum_eq s.timeLogs h

/-- Witness for the C5 theorem on the sample store. -/
theorem totalTrackedSeconds_sums_closed_logs_witness :
    (getStatistics sampleStore).totalTrackedSeconds =
    ((sampleStore.timeLogs.filter (fun l => l.endTime != none)).map TimeLog.duration).sum :=
  totalTrackedSeconds_sums_closed_logs sampleStore
    (by
      intro l hl
      have hls : l = sampleLog := by simpa [sampleStore] using hl
      rw [hls]
      exact ⟨le_refl 0, fun _ => rfl⟩)

/-- Starting a log preserves the time-log shape: the fresh log is open with a
zero duration. -/
theorem timeLogInv_start (taskId : Nat) (d : String) (now : Int) (s : Store)
    (h : timeLogInv s) : timeLogInv (startTimeTracking taskId d now s).2 := by
  intro l hl
  have hLogs : (startTimeTracking taskId d now s).2.timeLogs =
      s.timeLogs ++ [(startTimeTracking taskId d now s).1] := by
    unfold startTimeTracking
    simp only [logTaskActivity_timeLogs]
  rw [hLogs] at hl
  rcases List.mem_append.mp hl with h1 | h2
  · exact h l h1
  · have : l = (startTimeTracking taskId d now s).1 := by simpa using h2
    rw [this]
    exact ⟨le_refl 0, fun _ => rfl⟩

/-- Stopping a log preserves the time-log shape whenever the clock is not
behind any stored start time: the stopped log is closed with a non-negative
rounded duration. -/
theorem timeLogInv_stop (id : Nat) (now : Int) (s : Store) (h : timeLogInv s)
    (hc : ∀ l ∈ s.timeLogs, l.startTime ≤ now) :
    timeLogInv (stopTimeTracking id now s).2 := by
  intro l hl
  cases hf : s.timeLogs.find? (fun x => x.id == id) with
  | none =>
    have hsame : (stopTimeTracking id now s).2 = s := by
      unfold stopTimeTracking
      rw [hf]
    rw [hsame] at hl
    exact h l hl
  | some x =>
    have hLogs : (stopTimeTracking id now s).2.timeLogs =
        s.timeLogs.map (fun y => if y.id == id then
          { x with endTime := some now,
                   duration := mathRoundMsToSec (now - x.startTime) } else y) := by
      unfold stopTimeTracking
      rw [hf]
      simp only [addSyncLogEntry, logTaskActivity_timeLogs]
    rw [hLogs] at hl
    rcases List.mem_map.mp hl with ⟨y, hy, rfl⟩
    by_cases hyi : (y.id == id) = true
    · simp only [if_pos hyi]
      have hx : x ∈ s.timeLogs := List.mem_of_find?_eq_some hf
      refine ⟨?_, fun he => absurd he (by simp)⟩
      have := hc x hx
      unfold mathRoundMsToSec
      rw [Int.fdiv_eq_ediv _ (by omega)]
      exact Int.ediv_nonneg (by omega) (by omega)
    · simp only [if_neg hyi]
      exact h y hy

/-- C4 amended: `createTask` (an auto-increment table) never fails, assigns an
id distinct from every stored task id, applies the declared defaults to
omitted fields, and stores and returns the same record.  `createSubtask`,
however, derives its id as row count plus one, which can collide with an
existing id after a deletion and then the underlying add fails (see the
counterexample). -/
theorem createTask_fresh_id_defaults (s : Store) (input : InsertTask) (now : Int)
    (hinv : ∀ t ∈ s.tasks, t.id < s.nextTaskId) :
    (createTask input now s).1.id = s.nextTaskId
    ∧ (∀ t ∈ s.tasks, t.id ≠ (createTask input now s).1.id)
    ∧ (createTask input now s).2.tasks = s.tasks ++ [(createTask input now s).1]
    ∧ (createTask input now s).1.status = input.status.getD .notStarted
    ∧ (createTask input now s).1.priority = input.priority.getD .medium
    ∧ (createTask input now s).1.category = input.category.getD .other
    ∧ (createTask input now s).1.createdAt = now
    ∧ (createTask input now s).1.completedAt = none := by
  refine ⟨rfl, ?_, createTask_tasks input now s, rfl, rfl, rfl, rfl, rfl⟩
  intro t ht heq
  have h1 := hinv t ht
  have h2 : (createTask input now s).1.id = s.nextTaskId := rfl
  rw [h2] at heq
  omega

/-- Witness for the C4 amended theorem on the sample store. -/
theorem createTask_fresh_id_defaults_witness :
    (createTask { title := "B" } 3 sampleStore).1.id = sampleStore.nextTaskId
    ∧ (∀ t ∈ sampleStore.tasks, t.id ≠ (createTask { title := "B" } 3 sampleStore).1.id)
    ∧ (createTask { title := "B" } 3 sampleStore).2.tasks =
        sampleStore.tasks ++ [(createTask { title := "B" } 3 sampleStore).1]
    ∧ (createTask { title := "B" } 3 sampleStore).1.status =
        (({ title := "B" } : InsertTask)).status.getD .notStarted
    ∧ (createTask { title := "B" } 3 sampleStore).1.priority =
        (({ title := "B" } : InsertTask)).priority.getD .medium
    ∧ (createTask { title := "B" } 3 sampleStore).1.category =
        (({ title := "B" } : InsertTask)).category.getD .other
    ∧ (createTask { title := "B" } 3 sampleStore).1.createdAt = 3
    ∧ (createTask { title := "B" } 3 sampleStore).1.completedAt = none :=
  createTask_fresh_id_defaults sampleStore { title := "B" } 3 (by decide)

/-- C4 counterexample: two subtask creates, a delete of the first, then a
third create — the derived id `count + 1` collides with the surviving row's
id and the create fails, refuting both freshness and never-fails. -/
theorem createSubtask_id_collision :
    ((createSubtask { taskId := 1, title := "a", order := 0 } 0 {}).bind
      (fun a => (createSubtask { taskId := 1, title := "b", order := 1 } 0 a.2).map
        (fun b => (deleteSubtask 1 0 b.2).2))).map
      (fun c => createSubtask { taskId := 1, title := "c", order := 2 } 0 c) =
    some none := by decide

/-- Cascade loop of `deleteProject` keeps the project table. -/
theorem cascadeDeleteTasks_projects (ds : List Task) (now : Int) (acc : Store) :
    (cascadeDeleteTasks ds now acc).projects = acc.projects := by
  induction ds generalizing acc with
  | nil => rfl
  | cons d ds ih =>
    have step : cascadeDeleteTasks (d :: ds) now acc =
        cascadeDeleteTasks ds now
          (addSyncLogEntry { acc with tasks := acc.tasks.filter (fun x => x.id != d.id) }
            .task d.id .delete none now) := rfl
    rw [step, ih]
    rfl

/-- Cascade loop of `deleteProject` erases exactly the rows whose id occurs
among the cascaded tasks. -/
theorem cascadeDeleteTasks_tasks (ds : List Task) (now : Int) (acc : Store) :
    (cascadeDeleteTasks ds now acc).tasks =
      acc.tasks.filter (fun x => !(ds.any (fun d => x.id == d.id))) := by
  induction ds generalizing acc with
  | nil => simp [cascadeDeleteTasks]
  | cons d ds ih =>
    have step : cascadeDeleteTasks (d :: ds) now acc =
        cascadeDeleteTasks ds now
          (addSyncLogEntry { acc with tasks := acc.tasks.filter (fun x => x.id != d.id) }
            .task d.id .delete none now) := rfl
    rw [step, ih]
    simp only [addSyncLogEntry]
    rw [List.filter_filter]
    apply List.filter_congr
    intro x hx
    simp [List.any_cons, Bool.and_comm, bne]

/-- Task table after a successful client `deleteProject` with unique task
ids: exactly the rows whose `projectId` equals the deleted id disappear. -/
theorem deleteProject_tasks (id : Nat) (now : Int) (s : Store) (pr : Project)
    (hfind : s.projects.find? (fun p => p.id == id) = some pr)
    (hnodup : (s.tasks.map Task.id).Nodup) :
    (deleteProject id now s).2.tasks =
      s.tasks.filter (fun t => t.projectId != some id) := by
  have hred : (deleteProject id now s).2.tasks =
      (cascadeDeleteTasks (s.tasks.filter (fun t => t.projectId == some id)) now
        { s with projects := s.projects.filter (fun p => p.id != id) }).tasks := by
    unfold deleteProject
    rw [hfind]
    simp only [addSyncLogEntry, addActivityLog]
  rw [hred, cascadeDeleteTasks_tasks]
  apply List.filter_congr
  intro x hx
  by_cases hp : x.projectId = some id
  · have hmem : x ∈ s.tasks.filter (fun t => t.projectId == some id) :=
      List.mem_filter.mpr ⟨hx, by simp [hp]⟩
    have hany : (s.tasks.filter (fun t => t.projectId == some id)).any
        (fun d => x.id == d.id) = true :=
      List.any_eq_true.mpr ⟨x, hmem, by simp⟩
    simp [hany, hp]
  · have hany : (s.tasks.filter (fun t => t.projectId == some id)).any
        (fun d => x.id == d.id) = false := by
      rw [List.any_eq_false]
      intro d hd
      rcases List.mem_filter.mp hd with ⟨hd1, hd2⟩
      intro hxd
      have hxe : x = d :=
        List.inj_on_of_nodup_map hnodup hx hd1 (by simpa using hxd)
      rw [hxe] at hp
      exact hp (by simpa using hd2)
    simp [hany, hp]

/-- Project table after a successful client `deleteProject`: the keyed row is
gone. -/
theorem deleteProject_projects (id : Nat) (now : Int) (s : Store) (pr : Project)
    (hfind : s.projects.find? (fun p => p.id == id) = some pr) :
    (deleteProject id now s).2.projects =
      s.projects.filter (fun p => p.id != id) := by
  have hred : (deleteProject id now s).2.projects =
      (cascadeDeleteTasks (s.tasks.filter (fun t => t.projectId == some id)) now
        { s with projects := s.projects.filter (fun p => p.id != id) }).projects := by
    unfold deleteProject
    rw [hfind]
    simp only [addSyncLogEntry, addActivityLog]
  rw [hred, cascadeDeleteTasks_projects]

/-- Splicing out the first row with a key equals filtering that key out when
the keys are unique. -/
theorem eraseP_eq_filter_of_nodup_key (l : List Project) (id : Nat)
    (h : (l.map Project.id).Nodup) :
    l.eraseP (fun p => p.id == id) = l.filter (fun p => p.id != id) := by
  induction l with
  | nil => rfl
  | cons a l ih =>
    rcases List.nodup_cons.mp h with ⟨hh, ht⟩
    by_cases ha : (a.id == id) = true
    · rw [List.eraseP_cons]
      simp only [ha, cond_true]
      have haid : a.id = id := by simpa using ha
      have hself : l.filter (fun p => p.id != id) = l := by
        apply List.filter_eq_self.mpr
        intro x hxl
        have hxa : x.id ≠ a.id := fun hxe =>
          hh (List.mem_map.mpr ⟨x, hxl, hxe⟩)
        simp [haid ▸ hxa]
      rw [List.filter_cons, if_neg (by simp [haid]), hself]
    · have ha2 : (a.id == id) = false := by simpa using ha
      rw [List.eraseP_cons]
      simp only [ha2, cond_false]
      rw [List.filter_cons, if_pos (by simp [bne, ha2]), ih ht]

/-- C2: for a present project id, `deleteProject` returns true, removes the
project, and removes exactly the tasks whose `projectId` equals that id; for
an absent id it returns false and leaves the store untouched — in both the
client store and the server `MemStorage`. -/
theorem deleteProject_cascades_exactly (s : Store) (ms : MemStorage.MemStore)
    (id : Nat) (now : Int)
    (hnodup : (s.tasks.map Task.id).Nodup)
    (hmnodup : (ms.projectsData.map Project.id).Nodup) :
    ((s.projects.find? (fun p => p.id == id) = none →
        deleteProject id now s = (false, s))
    ∧ ∀ pr, s.projects.find? (fun p => p.id == id) = some pr →
        (deleteProject id now s).1 = true
        ∧ (deleteProject id now s).2.projects =
            s.projects.filter (fun p => p.id != id)
        ∧ (deleteProject id now s).2.tasks =
            s.tasks.filter (fun t => t.projectId != some id))
    ∧ ((ms.projectsData.find? (fun p => p.id == id) = none →
        MemStorage.deleteProject id ms = (false, ms))
    ∧ ∀ pr, ms.projectsData.find? (fun p => p.id == id) = some pr →
        (MemStorage.deleteProject id ms).1 = true
        ∧ (MemStorage.deleteProject id ms).2.projectsData =
            ms.projectsData.filter (fun p => p.id != id)
        ∧ (MemStorage.deleteProject id ms).2.tasksData =
            ms.tasksData.filter (fun t => t.projectId != some id)) := by
  refine ⟨⟨?_, ?_⟩, ?_, ?_⟩
  · intro hmiss
    unfold deleteProject
    rw [hmiss]
  · intro pr hfind
    refine ⟨?_, deleteProject_projects id now s pr hfind,
      deleteProject_tasks id now s pr hfind hnodup⟩
    unfold deleteProject
    rw [hfind]
  · intro hmiss
    unfold MemStorage.deleteProject
    rw [hmiss]
  · intro pr hfind
    refine ⟨?_, ?_, ?_⟩
    · unfold MemStorage.deleteProject
      rw [hfind]
    · have : (MemStorage.deleteProject id ms).2.projectsData =
          ms.projectsData.eraseP (fun p => p.id == id) := by
        unfold MemStorage.deleteProject
        rw [hfind]
      rw [this, eraseP_eq_filter_of_nodup_key ms.projectsData id hmnodup]
    · unfold MemStorage.deleteProject
      rw [hfind]

/-- Witness for the C2 theorem on the sample store and a one-project server
store. -/
theorem deleteProject_cascades_exactly_witness :
    ((sampleStore.projects.find? (fun p => p.id == 1) = none →
        deleteProject 1 0 sampleStore = (false, sampleStore))
    ∧ ∀ pr, sampleStore.projects.find? (fun p => p.id == 1) = some pr →
        (deleteProject 1 0 sampleStore).1 = true
        ∧ (deleteProject 1 0 sampleStore).2.projects =
            sampleStore.projects.filter (fun p => p.id != 1)
        ∧ (deleteProject 1 0 sampleStore).2.tasks =
            sampleStore.tasks.filter (fun t => t.projectId != some 1))
    ∧ ((({ projectsData := [sampleProject], tasksData := [sampleTask] } :
          MemStorage.MemStore).projectsData.find? (fun p => p.id == 1) = none →
        MemStorage.deleteProject 1
          { projectsData := [sampleProject], tasksData := [sampleTask] } =
          (false, { projectsData := [sampleProject], tasksData := [sampleTask] }))
    ∧ ∀ pr, (({ projectsData := [sampleProject], tasksData := [sampleTask] } :
          MemStorage.MemStore)).projectsData.find? (fun p => p.id == 1) = some pr →
        (MemStorage.deleteProject 1
            { projectsData := [sampleProject], tasksData := [sampleTask] }).1 = true
        ∧ (MemStorage.deleteProject 1
            { projectsData := [sampleProject], tasksData := [sampleTask] }).2.projectsData =
            (({ projectsData := [sampleProject], tasksData := [sampleTask] } :
              MemStorage.MemStore)).projectsData.filter (fun p => p.id != 1)
        ∧ (MemStorage.deleteProject 1
            { projectsData := [sampleProject], tasksData := [sampleTask] }).2.tasksData =
            (({ projectsData := [sampleProject], tasksData := [sampleTask] } :
              MemStorage.MemStore)).tasksData.filter (fun t => t.projectId != some 1)) :=
  deleteProject_cascades_exactly sampleStore
    { projectsData := [sampleProject], tasksData := [sampleTask] } 1 0
    (by decide) (by decide)

/-- C3 counterexample: `startTimeTracking` is a mutating operation (it stores
a new time log and appends an activity entry) yet appends no sync queue entry
at all, refuting "every mutating store operation appends one Sync Queue
entry". -/
theorem startTimeTracking_appends_no_sync_entry :
    ((startTimeTracking 1 "" 0 (createTask { title := "A" } 0 {}).2).2.syncLog.length,
     (startTimeTracking 1 "" 0 (createTask { title := "A" } 0 {}).2).2.timeLogs.length,
     (startTimeTracking 1 "" 0 (createTask { title := "A" } 0 {}).2).2.activityLog.length) =
    ((createTask { title := "A" } 0 {}).2.syncLog.length,
     (createTask { title := "A" } 0 {}).2.timeLogs.length + 1,
     (createTask { title := "A" } 0 {}).2.activityLog.length + 1) := by decide

/-- Cascade loop of `deleteProject` appends one sync entry per cascaded
task. -/
theorem cascadeDeleteTasks_syncLog_length (ds : List Task) (now : Int) (acc : Store) :
    (cascadeDeleteTasks ds now acc).syncLog.length = acc.syncLog.length + ds.length := by
  induction ds generalizing acc with
  | nil => rfl
  | cons d ds ih =>
    have step : cascadeDeleteTasks (d :: ds) now acc =
        cascadeDeleteTasks ds now
          (addSyncLogEntry { acc with tasks := acc.tasks.filter (fun x => x.id != d.id) }
            .task d.id .delete none now) := rfl
    rw [step, ih]
    simp [addSyncLogEntry]
    omega

/-- Cascade loop of `deleteProject` never touches the activity log. -/
theorem cascadeDeleteTasks_activityLog (ds : List Task) (now : Int) (acc : Store) :
    (cascadeDeleteTasks ds now acc).activityLog = acc.activityLog := by
  induction ds generalizing acc with
  | nil => rfl
  | cons d ds ih =>
    have step : cascadeDeleteTasks (d :: ds) now acc =
        cascadeDeleteTasks ds now
          (addSyncLogEntry { acc with tasks := acc.tasks.filter (fun x => x.id != d.id) }
            .task d.id .delete none now) := rfl
    rw [step, ih]
    rfl

/-- C3 amended: each mutating operation appends one activity entry and one
sync entry with the post-mutation snapshot for creates and updates and null
data for project and task deletes — with these exceptions forced by the code:
`startTimeTracking` appends no sync entry at all; `deleteSubtask` records the
pre-deletion subtask snapshot instead of null; `deleteProject` appends one
extra null-data sync entry per cascaded task; and the activity append of the
subtask, comment and time operations happens only when the parent task
exists (it does in every hypothesis below). -/
theorem mutation_log_appends (s : Store) (now : Int) (d : String)
    (ip : InsertProject) (pp : ProjectPatch) (it : InsertTask) (tp : TaskPatch)
    (sp : SubtaskPatch) (ic : CommentInput) (isub : SubtaskInput)
    (pid tid subid lid : Nat)
    (pr : Project) (tk : Task) (sb : Subtask) (lg : TimeLog)
    (hp : s.projects.find? (fun x => x.id == pid) = some pr)
    (ht : s.tasks.find? (fun x => x.id == tid) = some tk)
    (hs : s.subtasks.find? (fun x => x.id == subid) = some sb)
    (hsbt : s.tasks.find? (fun x => x.id == sb.taskId) = some tk)
    (hl : s.timeLogs.find? (fun x => x.id == lid) = some lg)
    (hlt : s.tasks.find? (fun x => x.id == lg.taskId) = some tk)
    (hct : s.tasks.find? (fun x => x.id == ic.taskId) = some tk)
    (hit : s.tasks.find? (fun x => x.id == isub.taskId) = some tk)
    (hfresh : s.subtasks.any (fun x => x.id == s.subtasks.length + 1) = false) :
    (((createProject ip now s).2.activityLog.length,
      (createProject ip now s).2.syncLog) =
      (s.activityLog.length + 1, s.syncLog ++
        [{ id := s.nextSyncId, entityType := .project, entityId := s.nextProjectId,
           action := .create, timestamp := now, synced := false,
           data := some (.proj (createProject ip now s).1) }]))
    ∧ (((updateProject pid pp now s).2.activityLog.length,
      (updateProject pid pp now s).2.syncLog) =
      (s.activityLog.length + 1, s.syncLog ++
        [{ id := s.nextSyncId, entityType := .project, entityId := pid,
           action := .update, timestamp := now, synced := false,
           data := some (.proj (mergeProject pr pp)) }]))
    ∧ (((createTask it now s).2.activityLog.length,
      (createTask it now s).2.syncLog) =
      (s.activityLog.length + 1, s.syncLog ++
        [{ id := s.nextSyncId, entityType := .task, entityId := s.nextTaskId,
           action := .create, timestamp := now, synced := false,
           data := some (.task (createTask it now s).1) }]))
    ∧ (((updateTask tid tp now s).2.activityLog.length,
      (updateTask tid tp now s).2.syncLog) =
      (s.activityLog.length + 1, s.syncLog ++
        [{ id := s.nextSyncId, entityType := .task, entityId := tid,
           action := .update, timestamp := now, synced := false,
           data := some (.task (mergeTask tk tp)) }]))
    ∧ (((completeTask tid now s).2.activityLog.length,
      (completeTask tid now s).2.syncLog) =
      (s.activityLog.length + 1, s.syncLog ++
        [{ id := s.nextSyncId, entityType := .task, entityId := tid,
           action := .update, timestamp := now, synced := false,
           data := some (.task
             { tk with status := TaskStatus.completed,
                       completedAt := some now }) }]))
    ∧ (((deleteTask tid now s).2.activityLog.length,
      (deleteTask tid now s).2.syncLog) =
      (s.activityLog.length + 1, s.syncLog ++
        [{ id := s.nextSyncId, entityType := .task, entityId := tid,
           action := .delete, timestamp := now, synced := false, data := none }]))
    ∧ (((deleteProject pid now s).2.activityLog.length,
      (deleteProject pid now s).2.syncLog.length) =
      (s.activityLog.length + 1,
       s.syncLog.length + 1 +
         (s.tasks.filter (fun t => t.projectId == some pid)).length))
    ∧ ((createSubtask isub now s).map
        (fun r => (r.2.activityLog.length, r.2.syncLog)) =
      some (s.activityLog.length + 1, s.syncLog ++
        [{ id := s.nextSyncId, entityType := .subtask,
           entityId := s.subtasks.length + 1, action := .create, timestamp := now,
           synced := false,
           data := some (.sub
             { id := s.subtasks.length + 1, taskId := isub.taskId,
               title := isub.title, isCompleted := false, order := isub.order }) }]))
    ∧ ((updateSubtask subid sp now s).map
        (fun r => (r.2.activityLog.length, r.2.syncLog)) =
      some (s.activityLog.length + 1, s.syncLog ++
        [{ id := s.nextSyncId, entityType := .subtask, entityId := subid,
           action := .update, timestamp := now, synced := false,
           data := some (.sub (mergeSubtask sb sp)) }]))
    ∧ ((deleteSubtask subid now s).1 = true
      ∧ ((deleteSubtask subid now s).2.activityLog.length,
        (deleteSubtask subid now s).2.syncLog) =
        (s.activityLog.length + 1, s.syncLog ++
          [{ id := s.nextSyncId, entityType := .subtask, entityId := subid,
             action := .delete, timestamp := now, synced := false,
             data := some (.sub sb) }]))
    ∧ (((addComment ic now s).2.activityLog.length,
      (addComment ic now s).2.syncLog) =
      (s.activityLog.length + 1, s.syncLog ++
        [{ id := s.nextSyncId, entityType := .comment, entityId := s.nextCommentId,
           action := .create, timestamp := now, synced := false,
           data := some (.comm (addComment ic now s).1) }]))
    ∧ (((startTimeTracking tid d now s).2.syncLog,
      (startTimeTracking tid d now s).2.activityLog.length,
      (startTimeTracking tid d now s).2.timeLogs.length) =
      (s.syncLog, s.activityLog.length + 1, s.timeLogs.length + 1))
    ∧ (((stopTimeTracking lid now s).2.activityLog.length,
      (stopTimeTracking lid now s).2.syncLog) =
      (s.activityLog.length + 1, s.syncLog ++
        [{ id := s.nextSyncId, entityType := .timeLog, entityId := lid,
           action := .update, timestamp := now, synced := false,
           data := some (.tlog
             { lg with endTime := some now,
                       duration := mathRoundMsToSec (now - lg.startTime) }) }])) := by
  refine ⟨?_, ?_, ?_, ?_, ?_, ?_, ?_, ?_, ?_, ⟨?_, ?_⟩, ?_, ?_, ?_⟩
  · simp [createProject, addActivityLog, addSyncLogEntry]
  · unfold updateProject
    rw [hp]
    simp [addActivityLog, addSyncLogEntry]
  · simp [createTask, addActivityLog, addSyncLogEntry]
  · unfold updateTask
    rw [ht]
    simp [addActivityLog, addSyncLogEntry]
  · unfold completeTask
    rw [ht]
    simp [addActivityLog, addSyncLogEntry]
  · unfold deleteTask
    rw [ht]
    simp [addActivityLog, addSyncLogEntry]
  · unfold deleteProject
    rw [hp]
    simp [addActivityLog, addSyncLogEntry, cascadeDeleteTasks_activityLog,
      cascadeDeleteTasks_syncLog_length]
    omega
  · unfold createSubtask
    simp [hfresh, logTaskActivity_activityLog_length, logTaskActivity_syncLog,
      logTaskActivity_nextSyncId, hit, addSyncLogEntry]
  · unfold updateSubtask
    rw [hs]
    cases hic : sp.isCompleted <;>
      simp [hic, logTaskActivity_activityLog_length, logTaskActivity_syncLog,
        logTaskActivity_nextSyncId, hsbt, addSyncLogEntry, mergeSubtask]
  · unfold deleteSubtask
    rw [hs]
  · unfold deleteSubtask
    rw [hs]
    simp [logTaskActivity_activityLog_length, logTaskActivity_syncLog,
      logTaskActivity_nextSyncId, hsbt, addSyncLogEntry]
  · simp [addComment, logTaskActivity_activityLog_length, logTaskActivity_syncLog,
      logTaskActivity_nextSyncId, hct, addSyncLogEntry]
  · simp [startTimeTracking, logTaskActivity_activityLog_length,
      logTaskActivity_syncLog, logTaskActivity_timeLogs, ht]
  · unfold stopTimeTracking
    rw [hl]
    simp [logTaskActivity_activityLog_length, logTaskActivity_syncLog,
      logTaskActivity_nextSyncId, hlt, addSyncLogEntry]

/-- Witness for the C3 amended theorem on the sample store. -/
theorem mutation_log_appends_witness :
    (((createProject { name := "N", phase := .production } 0 sampleStore).2.activityLog.length,
      (createProject { name := "N", phase := .production } 0 sampleStore).2.syncLog) =
      (sampleStore.activityLog.length + 1, sampleStore.syncLog ++
        [{ id := sampleStore.nextSyncId, entityType := .project,
           entityId := sampleStore.nextProjectId,
           action := .create, timestamp := 0, synced := false,
           data := some (.proj (createProject { name := "N", phase := .production }
             0 sampleStore).1) }]))
    ∧ (((updateProject 1 { progress := some 5 } 0 sampleStore).2.activityLog.length,
      (updateProject 1 { progress := some 5 } 0 sampleStore).2.syncLog) =
      (sampleStore.activityLog.length + 1, sampleStore.syncLog ++
        [{ id := sampleStore.nextSyncId, entityType := .project, entityId := 1,
           action := .update, timestamp := 0, synced := false,
           data := some (.proj (mergeProject sampleProject { progress := some 5 })) }]))
    ∧ (((createTask { title := "A" } 0 sampleStore).2.activityLog.length,
      (createTask { title := "A" } 0 sampleStore).2.syncLog) =
      (sampleStore.activityLog.length + 1, sampleStore.syncLog ++
        [{ id := sampleStore.nextSyncId, entityType := .task,
           entityId := sampleStore.nextTaskId,
           action := .create, timestamp := 0, synced := false,
           data := some (.task (createTask { title := "A" } 0 sampleStore).1) }]))
    ∧ (((updateTask 1 { title := some "B" } 0 sampleStore).2.activityLog.length,
      (updateTask 1 { title := some "B" } 0 sampleStore).2.syncLog) =
      (sampleStore.activityLog.length + 1, sampleStore.syncLog ++
        [{ id := sampleStore.nextSyncId, entityType := .task, entityId := 1,
           action := .update, timestamp := 0, synced := false,
           data := some (.task (mergeTask sampleTask { title := some "B" })) }]))
    ∧ (((completeTask 1 0 sampleStore).2.activityLog.length,
      (completeTask 1 0 sampleStore).2.syncLog) =
      (sampleStore.activityLog.length + 1, sampleStore.syncLog ++
        [{ id := sampleStore.nextSyncId, entityType := .task, entityId := 1,
           action := .update, timestamp := 0, synced := false,
           data := some (.task
             { sampleTask with status := TaskStatus.completed,
                               completedAt := some 0 }) }]))
    ∧ (((deleteTask 1 0 sampleStore).2.activityLog.length,
      (deleteTask 1 0 sampleStore).2.syncLog) =
      (sampleStore.activityLog.length + 1, sampleStore.syncLog ++
        [{ id := sampleStore.nextSyncId, entityType := .task, entityId := 1,
           action := .delete, timestamp := 0, synced := false, data := none }]))
    ∧ (((deleteProject 1 0 sampleStore).2.activityLog.length,
      (deleteProject 1 0 sampleStore).2.syncLog.length) =
      (sampleStore.activityLog.length + 1,
       sampleStore.syncLog.length + 1 +
         (sampleStore.tasks.filter (fun t => t.projectId == some 1)).length))
    ∧ ((createSubtask { taskId := 1, title := "s", order := 1 } 0 sampleStore).map
        (fun r => (r.2.activityLog.length, r.2.syncLog)) =
      some (sampleStore.activityLog.length + 1, sampleStore.syncLog ++
        [{ id := sampleStore.nextSyncId, entityType := .subtask,
           entityId := sampleStore.subtasks.length + 1, action := .create,
           timestamp := 0, synced := false,
           data := some (.sub
             { id := sampleStore.subtasks.length + 1, taskId := 1,
               title := "s", isCompleted := false, order := 1 }) }]))
    ∧ ((updateSubtask 1 { isCompleted := some true } 0 sampleStore).map
        (fun r => (r.2.activityLog.length, r.2.syncLog)) =
      some (sampleStore.activityLog.length + 1, sampleStore.syncLog ++
        [{ id := sampleStore.nextSyncId, entityType := .subtask, entityId := 1,
           action := .update, timestamp := 0, synced := false,
           data := some (.sub (mergeSubtask sampleSubtask
             { isCompleted := some true })) }]))
    ∧ ((deleteSubtask 1 0 sampleStore).1 = true
      ∧ ((deleteSubtask 1 0 sampleStore).2.activityLog.length,
        (deleteSubtask 1 0 sampleStore).2.syncLog) =
        (sampleStore.activityLog.length + 1, sampleStore.syncLog ++
          [{ id := sampleStore.nextSyncId, entityType := .subtask, entityId := 1,
             action := .delete, timestamp := 0, synced := false,
             data := some (.sub sampleSubtask) }]))
    ∧ (((addComment { taskId := 1, content := "c", createdBy := "u" } 0
        sampleStore).2.activityLog.length,
      (addComment { taskId := 1, content := "c", createdBy := "u" } 0
        sampleStore).2.syncLog) =
      (sampleStore.activityLog.length + 1, sampleStore.syncLog ++
        [{ id := sampleStore.nextSyncId, entityType := .comment,
           entityId := sampleStore.nextCommentId,
           action := .create, timestamp := 0, synced := false,
           data := some (.comm
             (addComment { taskId := 1, content := "c", createdBy := "u" }
               0 sampleStore).1) }]))
    ∧ (((startTimeTracking 1 "" 0 sampleStore).2.syncLog,
      (startTimeTracking 1 "" 0 sampleStore).2.activityLog.length,
      (startTimeTracking 1 "" 0 sampleStore).2.timeLogs.length) =
      (sampleStore.syncLog, sampleStore.activityLog.length + 1,
       sampleStore.timeLogs.length + 1))
    ∧ (((stopTimeTracking 1 0 sampleStore).2.activityLog.length,
      (stopTimeTracking 1 0 sampleStore).2.syncLog) =
      (sampleStore.activityLog.length + 1, sampleStore.syncLog ++
        [{ id := sampleStore.nextSyncId, entityType := .timeLog, entityId := 1,
           action := .update, timestamp := 0, synced := false,
           data := some (.tlog
             { sampleLog with endTime := some 0,
                              duration := mathRoundMsToSec (0 - sampleLog.startTime) }) }])) :=
  mutation_log_appends sampleStore 0 ""
    { name := "N", phase := .production } { progress := some 5 }
    { title := "A" } { title := some "B" }
    { isCompleted := some true } { taskId := 1, content := "c", createdBy := "u" }
    { taskId := 1, title := "s", order := 1 }
    1 1 1 1 sampleProject sampleTask sampleSubtask sampleLog
    (by decide) (by decide) (by decide) (by decide) (by decide) (by decide)
    (by decide) (by decide) (by decide)

/-- One reorder request keeps every row id. -/
theorem applyOrd_id (r : Nat × Int) (x : Subtask) : (applyOrd r x).id = x.id := by
  unfold applyOrd
  split <;> rfl

/-- One reorder request keeps every row's parent task. -/
theorem applyOrd_taskId (r : Nat × Int) (x : Subtask) :
    (applyOrd r x).taskId = x.taskId := by
  unfold applyOrd
  split <;> rfl

/-- A reorder request list keeps every row id. -/
theorem applyAll_id (reqs : List (Nat × Int)) (x : Subtask) :
    (applyAll reqs x).id = x.id := by
  induction reqs generalizing x with
  | nil => rfl
  | cons r rs ih =>
    rw [show applyAll (r :: rs) x = applyAll rs (applyOrd r x) from rfl]
    rw [ih, applyOrd_id]

/-- A reorder request list keeps every row's parent task. -/
theorem applyAll_taskId (reqs : List (Nat × Int)) (x : Subtask) :
    (applyAll reqs x).taskId = x.taskId := by
  induction reqs generalizing x with
  | nil => rfl
  | cons r rs ih =>
    rw [show applyAll (r :: rs) x = applyAll rs (applyOrd r x) from rfl]
    rw [ih, applyOrd_taskId]

/-- A row whose id is never requested is left untouched. -/
theorem applyAll_not_mem (reqs : List (Nat × Int)) (x : Subtask)
    (hx : x.id ∉ reqs.map Prod.fst) : applyAll reqs x = x := by
  induction reqs generalizing x with
  | nil => rfl
  | cons r rs ih =>
    have h1 : x.id ≠ r.1 := fun he => hx (by simp [he])
    have h2 : x.id ∉ rs.map Prod.fst := fun hm => hx (by simp [hm])
    rw [show applyAll (r :: rs) x = applyAll rs (applyOrd r x) from rfl]
    have ho : applyOrd r x = x := by
      unfold applyOrd
      rw [if_neg (by simp [h1])]
    rw [ho]
    exact ih x h2

/-- With no repeated requested id, the row keyed by a requested pair ends up
with exactly the requested order and nothing else changed. -/
theorem applyAll_mem (reqs : List (Nat × Int)) (hnd : (reqs.map Prod.fst).Nodup)
    (i : Nat) (o : Int) (hio : (i, o) ∈ reqs) (x : Subtask) (hx : x.id = i) :
    applyAll reqs x = { x with order := o } := by
  induction reqs generalizing x with
  | nil => cases hio
  | cons r rs ih =>
    rcases List.nodup_cons.mp hnd with ⟨hh, ht⟩
    rcases List.mem_cons.mp hio with h1 | h2
    · subst h1
      rw [show applyAll ((i, o) :: rs) x = applyAll rs (applyOrd (i, o) x) from rfl]
      have ho : applyOrd (i, o) x = { x with order := o } := by
        unfold applyOrd
        rw [if_pos (by simp [hx])]
      rw [ho]
      apply applyAll_not_mem
      simpa [hx] using hh
    · have hi_rs : i ∈ rs.map Prod.fst := List.mem_map.mpr ⟨(i, o), h2, rfl⟩
      have hri : r.1 ≠ i := fun he => hh (he ▸ hi_rs)
      rw [show applyAll (r :: rs) x = applyAll rs (applyOrd r x) from rfl]
      have ho : applyOrd r x = x := by
        unfold applyOrd
        rw [if_neg (by simp [hx]; exact fun he => hri he.symm)]
      rw [ho]
      exact ih ht h2 x hx

/-- Subtask table written by `updateSubtasksOrder` on a unique-id table: every
row passes through the pure per-row request semantics. -/
theorem updateSubtasksOrder_subtasks (reqs : List (Nat × Int)) (now : Int)
    (s : Store) (hnodup : (s.subtasks.map Subtask.id).Nodup) :
    (updateSubtasksOrder reqs now s).2.subtasks = s.subtasks.map (applyAll reqs) := by
  have key : ∀ (rs : List (Nat × Int)) (t : Store),
      (t.subtasks.map Subtask.id).Nodup →
      (rs.foldl (applyOrderReq now) t).subtasks = t.subtasks.map (applyAll rs) := by
    intro rs
    induction rs with
    | nil =>
      intro t _
      have : ∀ x ∈ t.subtasks, x = applyAll [] x := fun x _ => rfl
      calc t.subtasks = t.subtasks.map (fun x => x) := (List.map_id' t.subtasks).symm
        _ = t.subtasks.map (applyAll []) := rfl
    | cons r rs ih =>
      intro t hnd
      rw [show (r :: rs).foldl (applyOrderReq now) t =
        rs.foldl (applyOrderReq now) (applyOrderReq now t r) from rfl]
      have hsub : (applyOrderReq now t r).subtasks = t.subtasks.map (applyOrd r) := by
        unfold applyOrderReq
        cases hf : t.subtasks.find? (fun x => x.id == r.1) with
        | none =>
          have hnone : ∀ x ∈ t.subtasks, applyOrd r x = x := by
            intro x hx
            have := List.find?_eq_none.mp hf x hx
            unfold applyOrd
            rw [if_neg this]
          calc t.subtasks = t.subtasks.map (fun x => x) := (List.map_id' t.subtasks).symm
            _ = t.subtasks.map (applyOrd r) :=
              (List.map_congr_left (fun x hx => (hnone x hx).symm))
        | some cur =>
          have hcur1 : cur.id = r.1 := by simpa using List.find?_some hf
          have hcur2 : cur ∈ t.subtasks := List.mem_of_find?_eq_some hf
          simp only [addSyncLogEntry]
          apply List.map_congr_left
          intro x hx
          by_cases hxr : (x.id == r.1) = true
          · have hxc : x = cur := by
              apply List.inj_on_of_nodup_map hnd hx hcur2
              have e1 : x.id = r.1 := by simpa using hxr
              rw [e1, hcur1]
            rw [if_pos hxr]
            unfold applyOrd
            rw [if_pos hxr, hxc]
          · rw [if_neg hxr]
            unfold applyOrd
            rw [if_neg hxr]
      have hnd2 : ((applyOrderReq now t r).subtasks.map Subtask.id).Nodup := by
        rw [hsub, List.map_map]
        have : (t.subtasks.map (Subtask.id ∘ applyOrd r)) = t.subtasks.map Subtask.id :=
          List.map_congr_left (fun x _ => applyOrd_id r x)
        rw [this]
        exact hnd
      rw [ih (applyOrderReq now t r) hnd2, hsub, List.map_map]
      apply List.map_congr_left
      intro x _
      rfl
  have hresult : (updateSubtasksOrder reqs now s).2.subtasks =
      (reqs.foldl (applyOrderReq now) s).subtasks := by
    unfold updateSubtasksOrder
    simp only [addActivityLog]
  rw [hresult]
  exact key reqs s hnodup

/-- The requested ids are exactly the permuted sibling ids, in order. -/
theorem reorderReq_fst (perm : List Subtask) :
    (reorderReq perm).map Prod.fst = perm.map Subtask.id := by
  unfold reorderReq
  rw [List.map_map]
  rw [show (Prod.fst ∘ fun p : Nat × Subtask => (p.2.id, (p.1 : Int))) =
    (Subtask.id ∘ Prod.snd) from rfl]
  rw [← List.map_map, List.enum_map_snd]

/-- Each position of the permuted sibling list is requested with its index as
the new order. -/
theorem reorderReq_mem (perm : List Subtask) (idx : Nat) (h : idx < perm.length) :
    ((perm[idx]).id, (idx : Int)) ∈ reorderReq perm := by
  unfold reorderReq
  apply List.mem_map.mpr
  have hlen : idx < perm.enum.length := by
    rw [List.enum_length]
    exact h
  refine ⟨(idx, perm[idx]), ?_, rfl⟩
  have hg : perm.enum[idx] = (idx, perm[idx]) := List.getElem_enum perm idx hlen
  rw [← hg]
  exact List.getElem_mem hlen

/-- C8: applying `updateSubtasksOrder` to a permutation of the siblings of a
task, each paired with its position (as the UI reorder caller does), rewrites
the order fields of all those siblings so that the resulting order values are
a dense permutation of 0..n-1, and every requested id carries exactly its
requested order. -/
theorem updateSubtasksOrder_dense_perm (s : Store) (k : Nat) (now : Int)
    (perm : List Subtask)
    (hperm : perm.Perm (s.subtasks.filter (fun x => x.taskId == k)))
    (hnodup : (s.subtasks.map Subtask.id).Nodup) :
    (((updateSubtasksOrder (reorderReq perm) now s).2.subtasks.filter
        (fun x => x.taskId == k)).map Subtask.order).Perm
      ((List.range perm.length).map Int.ofNat)
    ∧ ∀ p ∈ reorderReq perm,
        ∀ y ∈ (updateSubtasksOrder (reorderReq perm) now s).2.subtasks,
          y.id = p.1 → y.order = p.2 := by
  have hsibnd : ((s.subtasks.filter (fun x => x.taskId == k)).map Subtask.id).Nodup :=
    ((List.filter_sublist s.subtasks).map Subtask.id).nodup hnodup
  have hpermnd : (perm.map Subtask.id).Nodup :=
    ((hperm.map Subtask.id).nodup_iff).mpr hsibnd
  have hreqnd : ((reorderReq perm).map Prod.fst).Nodup := by
    rw [reorderReq_fst]
    exact hpermnd
  have hres : (updateSubtasksOrder (reorderReq perm) now s).2.subtasks =
      s.subtasks.map (applyAll (reorderReq perm)) :=
    updateSubtasksOrder_subtasks (reorderReq perm) now s hnodup
  constructor
  · rw [hres, List.filter_map]
    have hfc : s.subtasks.filter ((fun x => x.taskId == k) ∘ applyAll (reorderReq perm)) =
        s.subtasks.filter (fun x => x.taskId == k) := by
      apply List.filter_congr
      intro x _
      simp [Function.comp, applyAll_taskId]
    rw [hfc, List.map_map]
    have hchain : ((s.subtasks.filter (fun x => x.taskId == k)).map
        (Subtask.order ∘ applyAll (reorderReq perm))).Perm
        (perm.map (Subtask.order ∘ applyAll (reorderReq perm))) :=
      (hperm.map (Subtask.order ∘ applyAll (reorderReq perm))).symm
    have hval : perm.map (Subtask.order ∘ applyAll (reorderReq perm)) =
        (List.range perm.length).map Int.ofNat := by
      apply List.ext_getElem
      · rw [List.length_map, List.length_map, List.length_range]
      · intro n h1 h2
        have hn : n < perm.length := by
          rw [List.length_map] at h1
          exact h1
        have hmem := reorderReq_mem perm n hn
        have happ := applyAll_mem (reorderReq perm) hreqnd (perm[n]).id
          (n : Int) hmem (perm[n]) rfl
        simp only [List.getElem_map, List.getElem_range, Function.comp_apply]
        rw [happ]
        rfl
    exact hval ▸ hchain
  · intro p hp y hy hyp
    rw [hres] at hy
    rcases List.mem_map.mp hy with ⟨x, hx, rfl⟩
    have hxid : x.id = p.1 := by
      rw [← applyAll_id (reorderReq perm) x]
      exact hyp
    have := applyAll_mem (reorderReq perm) hreqnd p.1 p.2
      (by simpa using hp) x hxid
    rw [this]

/-- Witness for the C8 theorem: reversing the two siblings of task 1. -/
theorem updateSubtasksOrder_dense_perm_witness :
    (((updateSubtasksOrder (reorderReq witPerm) 0 orderStore).2.subtasks.filter
        (fun x => x.taskId == 1)).map Subtask.order).Perm
      ((List.range witPerm.length).map Int.ofNat)
    ∧ ∀ p ∈ reorderReq witPerm,
        ∀ y ∈ (updateSubtasksOrder (reorderReq witPerm) 0 orderStore).2.subtasks,
          y.id = p.1 → y.order = p.2 :=
  updateSubtasksOrder_dense_perm orderStore 1 0 witPerm (by decide) (by decide)

end GameDevTasks
